import Mathlib

/-!
# Verification of `track_applications.py`

Shallow embedding of the job-application tracker's core pipeline:
status classification, text extraction from nested body parts,
company/job-title guessing, date normalization, and the CSV
dedup/append persistence layer.  Python strings are modelled as Lean
`String`s, bytes as `List Nat`, raised exceptions as `Except`.
-/

namespace JobTracker

/-- Python whitespace characters, as recognised by `str.strip()` /
regex `\s` (ASCII range; the messages handled are ASCII). -/
def isPySpace (c : Char) : Bool :=
  c = ' ' || c = '\t' || c = '\n' || c = '\r' || c = '\x0b' || c = '\x0c'

/-- Python `str.strip()`: remove leading and trailing whitespace. -/
def pyStrip (s : String) : String :=
  ⟨(s.toList.dropWhile isPySpace).reverse.dropWhile isPySpace |>.reverse⟩

/-- Python `str.strip(chars)`: remove leading and trailing characters
drawn from `chars`. -/
def pyStripChars (chars : List Char) (s : String) : String :=
  ⟨(s.toList.dropWhile chars.contains).reverse.dropWhile chars.contains |>.reverse⟩

/-- Python `str.lower()` (ASCII; `Char.toLower` lowers exactly
`A`–`Z`, which matches `str.lower` on the ASCII inputs handled). -/
def pyLower (s : String) : String :=
  ⟨s.toList.map Char.toLower⟩

/-- Python `str.capitalize()`: first character upper-cased, the rest
lower-cased (ASCII). -/
def pyCapitalize (s : String) : String :=
  match s.toList with
  | [] => ""
  | c :: cs => ⟨c.toUpper :: cs.map Char.toLower⟩

/-- A regex `\w` word character (`[A-Za-z0-9_]`, ASCII). -/
def isWordChar (c : Char) : Bool := c.isAlphanum || c = '_'

/-- Tokens of the small regular-expression fragment used by
`STATUS_PATTERNS`: word boundaries `\b`, literal strings, `.*`
(which does not cross a newline), and an alternation of literals. -/
inductive Tok where
  | wb : Tok
  | str (lit : String) : Tok
  | dotstar : Tok
  | alts (lits : List String) : Tok
deriving Repr

/-- `\b` holds between the previous character (`none` at the string
edge) and the start of `s`: exactly one side is a word character. -/
def wordBoundary (prev : Option Char) (s : List Char) : Bool :=
  let l := match prev with | none => false | some c => isWordChar c
  let r := match s with | [] => false | c :: _ => isWordChar c
  l != r

/-- Try to consume the literal `lit` from the front of `s`, returning
the new previous-character and the remainder. -/
def stripLit : List Char → Option Char → List Char → Option (Option Char × List Char)
  | [], prev, s => some (prev, s)
  | l :: ls, _, c :: cs => if l = c then stripLit ls (some c) cs else none
  | _ :: _, _, [] => none

/-- Match a token sequence against a prefix of `s` (the rest of the
string is unconstrained, as under `re.search`).  `prev` is the
character just before `s`, for `\b`.  `fuel` bounds the recursion
depth; every call strictly decreases `toks.length + s.length`, so any
`fuel > toks.length + s.length` is never exhausted. -/
def matchToks : Nat → List Tok → Option Char → List Char → Bool
  | 0, _, _, _ => false
  | _ + 1, [], _, _ => true
  | fuel + 1, .wb :: rest, prev, s =>
      wordBoundary prev s && matchToks fuel rest prev s
  | fuel + 1, .str lit :: rest, prev, s =>
      match stripLit lit.toList prev s with
      | some (p, r) => matchToks fuel rest p r
      | none => false
  | fuel + 1, .alts lits :: rest, prev, s =>
      lits.any fun lit =>
        match stripLit lit.toList prev s with
        | some (p, r) => matchToks fuel rest p r
        | none => false
  | fuel + 1, .dotstar :: rest, prev, s =>
      matchToks fuel rest prev s ||
        match s with
        | [] => false
        | c :: cs => !(c = '\n') && matchToks fuel (.dotstar :: rest) (some c) cs

/-- Match the token sequence at the current position with sufficient
fuel. -/
def reMatch (toks : List Tok) (prev : Option Char) (s : List Char) : Bool :=
  matchToks (toks.length + s.length + 1) toks prev s

/-- `re.search`: try every start position, left to right. -/
def reSearchAux (toks : List Tok) : Option Char → List Char → Bool
  | prev, [] => reMatch toks prev []
  | prev, c :: cs => reMatch toks prev (c :: cs) || reSearchAux toks (some c) cs

/-- `re.search(pattern, t)` as a Boolean: does the pattern match
anywhere in `t`? -/
def reSearch (toks : List Tok) (t : String) : Bool :=
  reSearchAux toks none t.toList

/-- The `"Offer"` patterns of `STATUS_PATTERNS`. -/
def offerPats : List (List Tok) :=
  [[.wb, .str "offer", .wb],
   [.str "congratulations", .dotstar, .str "offer"],
   [.wb, .str "offer letter", .wb]]

/-- The `"Interview"` patterns of `STATUS_PATTERNS`. -/
def interviewPats : List (List Tok) :=
  [[.wb, .str "interview", .wb],
   [.wb, .str "schedule", .dotstar, .str "interview", .wb],
   [.wb, .str "phone screen", .wb],
   [.wb, .str "technical interview", .wb]]

/-- The `"Rejected"` patterns of `STATUS_PATTERNS`. -/
def rejectedPats : List (List Tok) :=
  [[.wb, .str "not selected", .wb],
   [.wb, .str "we regret", .wb],
   [.wb, .str "unfortunately", .wb],
   [.wb, .str "rejected", .wb]]

/-- The `"Submitted"` patterns of `STATUS_PATTERNS`. -/
def submittedPats : List (List Tok) :=
  [[.wb, .str "application received", .wb],
   [.wb, .str "thank you for applying", .wb],
   [.wb, .str "application submitted", .wb]]

/-- The `"Assessment"` patterns of `STATUS_PATTERNS`
(`\bassess(ment|ment link)\b`, `\bcode challenge\b`,
`\bonline test\b`). -/
def assessmentPats : List (List Tok) :=
  [[.wb, .str "assess", .alts ["ment", "ment link"], .wb],
   [.wb, .str "code challenge", .wb],
   [.wb, .str "online test", .wb]]

/-- `STATUS_PATTERNS`: the ordered status/pattern table (Python dicts
iterate in insertion order). -/
def STATUS_PATTERNS : List (String × List (List Tok)) :=
  [("Offer", offerPats),
   ("Interview", interviewPats),
   ("Rejected", rejectedPats),
   ("Submitted", submittedPats),
   ("Assessment", assessmentPats)]

/-- Does any pattern of the category match `t`? -/
def catMatch (pats : List (List Tok)) (t : String) : Bool :=
  pats.any fun p => reSearch p t

/-- `detect_status(text)`: empty text is Unknown; otherwise lower-case
and return the first category in `STATUS_PATTERNS` order with a
matching pattern, else Unknown. -/
def detect_status (text : String) : String :=
  if text = "" then "Unknown"
  else
    let t := pyLower text
    match STATUS_PATTERNS.find? (fun sp => catMatch sp.2 t) with
    | some sp => sp.1
    | none => "Unknown"

example : detect_status "offers all around" = "Unknown" := by decide
example : detect_status "your code challenge awaits" = "Assessment" := by decide
example : detect_status "we regret to inform" = "Rejected" := by decide
example : detect_status "thank you for applying" = "Submitted" := by decide
example : detect_status "reassessment of plans" = "Unknown" := by decide
example : detect_status "Congratulations! an OFFERing" = "Offer" := by decide
example : detect_status "(offer)" = "Offer" := by decide
example : detect_status "an offer_" = "Unknown" := by decide
example : detect_status "self-assessment" = "Assessment" := by decide
example : detect_status "online tests" = "Unknown" := by decide
example : detect_status "" = "Unknown" := by decide

/-- Claim C1: `detect_status` lower-cases the text and tests the status
categories in the fixed priority order Offer, Interview, Rejected,
Submitted, Assessment, returning the first category with a matching
pattern and `"Unknown"` when none matches; in particular a text
containing both an Offer trigger and an Interview trigger classifies
as Offer. -/
theorem detect_status_priority :
    (∀ text : String,
      detect_status text =
        (if catMatch offerPats (pyLower text) then "Offer"
         else if catMatch interviewPats (pyLower text) then "Interview"
         else if catMatch rejectedPats (pyLower text) then "Rejected"
         else if catMatch submittedPats (pyLower text) then "Submitted"
         else if catMatch assessmentPats (pyLower text) then "Assessment"
         else "Unknown"))
    ∧ detect_status "We would like to schedule an Interview to discuss your OFFER"
        = "Offer" := by
  constructor
  · intro text
    by_cases htext : text = ""
    · subst htext; decide
    · simp only [detect_status, if_neg htext, STATUS_PATTERNS, List.find?]
      cases h1 : catMatch offerPats (pyLower text) <;>
        cases h2 : catMatch interviewPats (pyLower text) <;>
          cases h3 : catMatch rejectedPats (pyLower text) <;>
            cases h4 : catMatch submittedPats (pyLower text) <;>
              cases h5 : catMatch assessmentPats (pyLower text) <;>
                simp [h1, h2, h3, h4, h5]
  · decide

/-! ## Text extraction: `extract_text_from_payload` -/

/-- Value of a base64 character after `urlsafe_b64decode`'s `-`→`+`,
`_`→`/` translation; `none` for characters outside the alphabet
(ignored by non-strict `binascii.a2b_base64`). -/
def b64Val (c : Char) : Option Nat :=
  if 'A' ≤ c ∧ c ≤ 'Z' then some (c.toNat - 65)
  else if 'a' ≤ c ∧ c ≤ 'z' then some (c.toNat - 97 + 26)
  else if '0' ≤ c ∧ c ≤ '9' then some (c.toNat - 48 + 52)
  else if c = '+' ∨ c = '-' then some 62
  else if c = '/' ∨ c = '_' then some 63
  else none

/-- Turn 6-bit base64 values into bytes.  `pads` is the number of `=`
characters available for the final group; a trailing group of one
value, or of two or three values with too few `=`, raises
`binascii.Error` in the source. -/
def b64Bytes (pads : Nat) : List Nat → Except String (List Nat)
  | [] => .ok []
  | a :: b :: c :: d :: rest => do
      let tail ← b64Bytes pads rest
      .ok ((a * 4 + b / 16) :: ((b % 16) * 16 + c / 4) :: ((c % 4) * 64 + d) :: tail)
  | [_] => .error "Invalid base64-encoded string"
  | [a, b] =>
      if pads ≥ 2 then .ok [a * 4 + b / 16] else .error "Incorrect padding"
  | [a, b, c] =>
      if pads ≥ 1 then .ok [a * 4 + b / 16, (b % 16) * 16 + c / 4]
      else .error "Incorrect padding"

/-- `base64.urlsafe_b64decode` on ASCII input: characters outside the
alphabet are skipped, the first `=` starts the padding region, and an
incomplete trailing group without enough padding is an error. -/
def urlsafe_b64decode (s : List Char) : Except String (List Nat) :=
  let kept := s.filter (fun c => (b64Val c).isSome || c = '=')
  let dataChars := kept.takeWhile (fun c => c ≠ '=')
  let pads := ((kept.dropWhile (fun c => c ≠ '=')).filter (fun c => c = '=')).length
  b64Bytes pads (dataChars.filterMap b64Val)

/-- Python `str.encode("ASCII")`: raises `UnicodeEncodeError` on any
non-ASCII character; on success the bytes are the characters
themselves. -/
def encodeAscii (s : String) : Except String (List Char) :=
  if s.toList.all (fun c => c.toNat < 128) then .ok s.toList
  else .error "UnicodeEncodeError"

/-- The U+FFFD replacement character. -/
def replChar : Char := '�'

/-- A UTF-8 continuation byte. -/
def isCont (b : Nat) : Bool := 128 ≤ b && b ≤ 191

/-- Allowed second byte of a three-byte UTF-8 sequence (excludes
overlong encodings and surrogates). -/
def contOk3 (b b2 : Nat) : Bool :=
  if b = 224 then 160 ≤ b2 && b2 ≤ 191
  else if b = 237 then 128 ≤ b2 && b2 ≤ 159
  else isCont b2

/-- Allowed second byte of a four-byte UTF-8 sequence. -/
def contOk4 (b b2 : Nat) : Bool :=
  if b = 240 then 144 ≤ b2 && b2 ≤ 191
  else if b = 244 then 128 ≤ b2 && b2 ≤ 143
  else isCont b2

/-- Worker for `utf8DecodeReplace`.  Every step consumes at least one
byte and decrements `fuel` by exactly one, so any `fuel ≥ length` is
never exhausted and the fuel never changes the result. -/
def utf8Aux : Nat → List Nat → List Char
  | 0, _ => []
  | _ + 1, [] => []
  | fuel + 1, b :: rest =>
    if b < 128 then Char.ofNat b :: utf8Aux fuel rest
    else if b < 194 then replChar :: utf8Aux fuel rest
    else if b ≤ 223 then
      match rest with
      | b2 :: rest2 =>
        if isCont b2 then
          Char.ofNat ((b - 192) * 64 + (b2 - 128)) :: utf8Aux fuel rest2
        else replChar :: utf8Aux fuel rest
      | [] => [replChar]
    else if b ≤ 239 then
      match rest with
      | b2 :: rest2 =>
        if contOk3 b b2 then
          match rest2 with
          | b3 :: rest3 =>
            if isCont b3 then
              Char.ofNat ((b - 224) * 4096 + (b2 - 128) * 64 + (b3 - 128)) ::
                utf8Aux fuel rest3
            else replChar :: utf8Aux fuel rest2
          | [] => [replChar]
        else replChar :: utf8Aux fuel rest
      | [] => [replChar]
    else if b ≤ 244 then
      match rest with
      | b2 :: rest2 =>
        if contOk4 b b2 then
          match rest2 with
          | b3 :: rest3 =>
            if isCont b3 then
              match rest3 with
              | b4 :: rest4 =>
                if isCont b4 then
                  Char.ofNat
                      ((b - 240) * 262144 + (b2 - 128) * 4096 + (b3 - 128) * 64 +
                        (b4 - 128)) ::
                    utf8Aux fuel rest4
                else replChar :: utf8Aux fuel rest3
              | [] => [replChar]
            else replChar :: utf8Aux fuel rest2
          | [] => [replChar]
        else replChar :: utf8Aux fuel rest
      | [] => [replChar]
    else replChar :: utf8Aux fuel rest

/-- `bytes.decode("utf-8", errors="replace")`: well-formed sequences
decode to their code point; each maximal ill-formed subpart becomes
one U+FFFD instead of raising. -/
def utf8DecodeReplace (bytes : List Nat) : List Char :=
  utf8Aux bytes.length bytes

/-- Decode one body payload: `base64.urlsafe_b64decode(data.encode("ASCII")).decode("utf-8", errors="replace")`. -/
def decodeData (d : String) : Except String String := do
  let bs ← encodeAscii d
  let bytes ← urlsafe_b64decode bs
  .ok ⟨utf8DecodeReplace bytes⟩

/-- Accumulating scanner behind `soup_get_text`: text runs outside
`<`…`>` tags, in order.  `inTag` says whether the scan position is
inside a tag; `acc` is the current (reversed) text run. -/
def soupChunks : Bool → List Char → List Char → List (List Char)
  | true, _, [] => []
  | false, acc, [] => if acc.isEmpty then [] else [acc.reverse]
  | true, _, c :: rest =>
      if c = '>' then soupChunks false [] rest else soupChunks true [] rest
  | false, acc, c :: rest =>
      if c = '<' then
        (if acc.isEmpty then [] else [acc.reverse]) ++ soupChunks true [] rest
      else soupChunks false (c :: acc) rest

/-- `BeautifulSoup(html, "html.parser").get_text(separator="\n")`,
modelled as the tag-free text runs joined by newlines (the
block-level separation the source relies on). -/
def soup_get_text (html : List Char) : String :=
  ⟨(List.intersperse ['\n'] (soupChunks false [] html)).flatten⟩

example : decodeData "ab==" = .ok "i" := by rfl
example : decodeData "ab=" = .error "Incorrect padding" := by rfl
example : decodeData "abcd" = .ok ⟨['i', replChar, '\x1d']⟩ := by rfl
example : decodeData "a" = .error "Invalid base64-encoded string" := by rfl
example : decodeData "" = .ok "" := by rfl
example : decodeData "aGVs\nbG8=" = .ok "hello" := by rfl
example : decodeData "____" = .ok ⟨[replChar, replChar, replChar]⟩ := by rfl
example : utf8DecodeReplace [0xff, 0x41] = ['\ufffd', 'A'] := by rfl
example : utf8DecodeReplace [0xe2, 0x82, 0xac] = ['€'] := by rfl
example : utf8DecodeReplace [0xe2, 0x82] = ['\ufffd'] := by rfl

mutual
/-- A Gmail body part as consumed by the source: `mimeType`,
`body.data` (optional URL-safe base64 text), and child `parts`.
`none` models a missing `data` field; `some ""` an empty one — both
are falsy in the source. -/
inductive Payload where
  | mk (mimeType : String) (data : Option String) (parts : Parts)
/-- The (possibly absent, hence possibly empty) list of child parts. -/
inductive Parts where
  | nil
  | cons (head : Payload) (tail : Parts)
end

/-- Python truthiness of the `data` field. -/
def truthyData : Option String → Option String
  | some s => if s = "" then none else some s
  | none => none

mutual
/-- `extract_text_from_payload(payload)`: a `text/plain` part with
truthy data returns its decoded text; else a `text/html` part with
truthy data returns its de-tagged decoded text; else the child parts
are tried in order and the first truthy result returned; else `None`.
An exception escaping the decode steps is `.error`. -/
def extract_text_from_payload : Payload → Except String (Option String)
  | .mk mime data parts =>
    match (if mime = "text/plain" then truthyData data else none) with
    | some d => do
        let t ← decodeData d
        .ok (some t)
    | none =>
      match (if mime = "text/html" then truthyData data else none) with
      | some d => do
          let html ← decodeData d
          .ok (some (soup_get_text html.toList))
      | none => extractFromParts parts

/-- The `for part in payload.get("parts", []) or []` loop: recurse
into each child and return the first truthy text. -/
def extractFromParts : Parts → Except String (Option String)
  | .nil => .ok none
  | .cons p ps => do
      let t ← extract_text_from_payload p
      match t with
      | some s => if s = "" then extractFromParts ps else .ok (some s)
      | none => extractFromParts ps
end

/-- Line 158 of `parse_message`:
`body = extract_text_from_payload(payload) or raw.get("snippet", "")`. -/
def body_of (p : Payload) (snippet : String) : Except String String := do
  let t ← extract_text_from_payload p
  match t with
  | some s => .ok (if s = "" then snippet else s)
  | none => .ok snippet

/-- Did the `Except` computation succeed (no exception raised)? -/
def exceptOk {ε α : Type} : Except ε α → Bool
  | .ok _ => true
  | .error _ => false

theorem exceptOk_iff {ε α : Type} {e : Except ε α} :
    exceptOk e = true ↔ ∃ a, e = .ok a := by
  cases e <;> simp [exceptOk]

mutual
/-- Every `data` field in the body-part tree is ASCII text that
decodes as URL-safe base64 (so no decode step raises). -/
def payloadWF : Payload → Bool
  | .mk _ data parts =>
    (match data with
     | none => true
     | some d => exceptOk (decodeData d)) && partsWF parts
/-- `payloadWF` on every part of the list. -/
def partsWF : Parts → Bool
  | .nil => true
  | .cons p ps => payloadWF p && partsWF ps
end

theorem truthyData_eq_some {data : Option String} {d : String}
    (h : truthyData data = some d) : data = some d := by
  cases data with
  | none => simp [truthyData] at h
  | some s =>
    simp only [truthyData] at h
    by_cases hs : s = "" <;> simp [hs] at h
    simp [h]

mutual
/-- On a well-formed tree no decode step raises, so
`extract_text_from_payload` returns a value. -/
def payload_wf_ok : ∀ p : Payload, payloadWF p = true →
    ∃ t, extract_text_from_payload p = .ok t
  | .mk mime data parts, h => by
    simp only [payloadWF, Bool.and_eq_true] at h
    obtain ⟨hdata, hparts⟩ := h
    have hdec : ∀ d, truthyData data = some d → ∃ s, decodeData d = .ok s := by
      intro d hd
      rw [truthyData_eq_some hd] at hdata
      exact exceptOk_iff.mp hdata
    simp only [extract_text_from_payload]
    by_cases hmime : mime = "text/plain"
    · simp only [if_pos hmime]
      rcases htd : truthyData data with _ | d
      · simp only [htd]
        rw [hmime]
        simp only [if_neg (by decide : ¬("text/plain" : String) = "text/html")]
        exact parts_wf_ok parts hparts
      · simp only [htd]
        obtain ⟨s, hs⟩ := hdec d htd
        exact ⟨some s, by rw [hs]; rfl⟩
    · simp only [if_neg hmime]
      by_cases hh : mime = "text/html"
      · simp only [if_pos hh]
        rcases htd : truthyData data with _ | d
        · simp only [htd]
          exact parts_wf_ok parts hparts
        · simp only [htd]
          obtain ⟨s, hs⟩ := hdec d htd
          exact ⟨some (soup_get_text s.toList), by rw [hs]; rfl⟩
      · simp only [if_neg hh]
        exact parts_wf_ok parts hparts
/-- On a well-formed part list the recursion loop returns a value. -/
def parts_wf_ok : ∀ ps : Parts, partsWF ps = true →
    ∃ t, extractFromParts ps = .ok t
  | .nil, _ => ⟨none, rfl⟩
  | .cons p ps, h => by
    simp only [partsWF, Bool.and_eq_true] at h
    obtain ⟨hp, hps⟩ := h
    obtain ⟨t, ht⟩ := payload_wf_ok p hp
    obtain ⟨t2, ht2⟩ := parts_wf_ok ps hps
    simp only [extractFromParts]
    rw [ht]
    cases t with
    | none => exact ⟨t2, ht2⟩
    | some s =>
      by_cases hs : s = ""
      · refine ⟨t2, ?_⟩
        show (if s = "" then extractFromParts ps else Except.ok (some s)) = _
        rw [if_pos hs]
        exact ht2
      · refine ⟨some s, ?_⟩
        show (if s = "" then extractFromParts ps else Except.ok (some s)) = _
        rw [if_neg hs]
end

example :
    decodeData "aGVsbG8=" = .ok "hello" := by rfl
example :
    extract_text_from_payload (.mk "text/plain" (some "abc") .nil)
      = .error "Incorrect padding" := by rfl
example :
    extract_text_from_payload
        (.mk "multipart/alternative" none
          (.cons (.mk "text/html" (some "PHA-SGVsbG88L3A-PHA-V29ybGQ8L3A-") .nil) .nil))
      = .ok (some "Hello\nWorld") := by rfl

/-- Claim C3: The extractor prefers a plain-text part at the current
level; otherwise it uses an HTML part, decoded and de-tagged with
newline separation; otherwise it recurses into the child parts in
order and returns the first non-empty result; and when it yields
nothing the caller falls back to the server snippet. -/
theorem extract_text_preference :
    (∀ mime data parts d, mime = "text/plain" → truthyData data = some d →
        extract_text_from_payload (.mk mime data parts)
          = Except.map some (decodeData d))
    ∧ (∀ mime data parts d, mime = "text/html" → truthyData data = some d →
        extract_text_from_payload (.mk mime data parts)
          = Except.map (fun s => some (soup_get_text s.toList)) (decodeData d))
    ∧ (∀ mime data parts,
        ((mime = "text/plain" ∨ mime = "text/html") → truthyData data = none) →
        extract_text_from_payload (.mk mime data parts) = extractFromParts parts)
    ∧ (∀ p ps s, extract_text_from_payload p = .ok (some s) → ¬s = "" →
        extractFromParts (.cons p ps) = .ok (some s))
    ∧ (∀ p ps, (extract_text_from_payload p = .ok none
          ∨ extract_text_from_payload p = .ok (some "")) →
        extractFromParts (.cons p ps) = extractFromParts ps)
    ∧ extractFromParts .nil = .ok none
    ∧ (∀ p snippet, extract_text_from_payload p = .ok none →
        body_of p snippet = .ok snippet) := by
  refine ⟨?_, ?_, ?_, ?_, ?_, rfl, ?_⟩
  · intro mime data parts d hmime htd
    simp only [extract_text_from_payload, if_pos hmime, htd]
    cases decodeData d <;> rfl
  · intro mime data parts d hmime htd
    have hne : ¬mime = "text/plain" := by rw [hmime]; decide
    simp only [extract_text_from_payload, if_neg hne, if_pos hmime, htd]
    cases decodeData d <;> rfl
  · intro mime data parts hnone
    simp only [extract_text_from_payload]
    by_cases hp : mime = "text/plain"
    · simp only [if_pos hp, hnone (Or.inl hp)]
      rw [hp]
      simp only [if_neg (by decide : ¬("text/plain" : String) = "text/html")]
    · simp only [if_neg hp]
      by_cases hh : mime = "text/html"
      · simp only [if_pos hh, hnone (Or.inr hh)]
      · simp only [if_neg hh]
  · intro p ps s hp hs
    simp only [extractFromParts]
    rw [hp]
    show (if s = "" then extractFromParts ps else Except.ok (some s)) = _
    rw [if_neg hs]
  · intro p ps hp
    rcases hp with hp | hp
    · simp only [extractFromParts]
      rw [hp]
      rfl
    · simp only [extractFromParts]
      rw [hp]
      show (if ("" : String) = "" then extractFromParts ps
            else Except.ok (some "")) = _
      rw [if_pos rfl]
  · intro p snippet hp
    simp only [body_of]
    rw [hp]
    rfl

/-- Witness for C3: a `text/plain` part with data decodes through the
plain-text branch. -/
theorem extract_text_preference_witness :
    extract_text_from_payload (.mk "text/plain" (some "aGVsbG8=") .nil)
      = Except.map some (decodeData "aGVsbG8=") :=
  extract_text_preference.1 "text/plain" (some "aGVsbG8=") .nil "aGVsbG8=" rfl rfl

/-- Claim C4, counterexample: The extractor *can* raise: a `text/plain`
part whose `data` is `"abc"` (three base64 characters, no padding)
makes `base64.urlsafe_b64decode` raise `binascii.Error`, which
propagates out of `extract_text_from_payload`. -/
theorem extract_text_raises_on_bad_base64 :
    extract_text_from_payload (.mk "text/plain" (some "abc") .nil)
      = .error "Incorrect padding" := by rfl

/-- Claim C4, amended: Charset errors are replaced rather than
rejected, and on any body-part structure whose `data` payloads are
ASCII and validly padded base64 the extractor never raises. -/
theorem extract_text_no_raise_on_wf :
    ∀ p : Payload, payloadWF p = true →
      ∃ t, extract_text_from_payload p = .ok t :=
  fun p h => payload_wf_ok p h

/-- Witness for the amended C4 on a concrete well-formed payload. -/
theorem extract_text_no_raise_on_wf_witness :
    payloadWF (.mk "text/plain" (some "aGVsbG8=") .nil) = true
    ∧ ∃ t, extract_text_from_payload (.mk "text/plain" (some "aGVsbG8=") .nil)
        = .ok t :=
  ⟨by rfl, extract_text_no_raise_on_wf (.mk "text/plain" (some "aGVsbG8=") .nil) (by rfl)⟩

/-! ## Date normalization (`parse_message`, lines 148–157) -/

/-- The date-normalization block of `parse_message`, with its
standard-library collaborators as parameters: `parsedate` models
`email.utils.parsedate_to_datetime` (raising = `.error`), `hasTzinfo`
tests `date_dt.tzinfo is not None`, `toLocalFromUtc` models
`replace(tzinfo=tz.tzutc()).astimezone(tz.tzlocal())` and `isoformat`
models `datetime.isoformat`.  The block runs inside `try/except
Exception`, falling back to `header_date or ""`. -/
def date_iso_of {DT : Type} (parsedate : String → Except String DT)
    (hasTzinfo : DT → Bool) (toLocalFromUtc : DT → DT)
    (isoformat : DT → String) (header_date : Option String) : String :=
  let attempt : Except String String :=
    match header_date with
    | none => .ok ""
    | some hd =>
      match parsedate hd with
      | .error e => .error e
      | .ok dt =>
        let dt' := if hasTzinfo dt then dt else toLocalFromUtc dt
        .ok (isoformat dt')
  match attempt with
  | .ok s => s
  | .error _ =>
    match header_date with
    | some hd => hd
    | none => ""

/-- Claim C6: Date normalization never raises: an absent header yields
`""`; a parse failure yields the raw header string; a parsed date
with zone information is ISO-formatted as is; a parsed date without
zone information is treated as UTC and converted to the local zone
before ISO formatting.  (The function is total by construction:
every case below produces a plain string.) -/
theorem date_normalization_cases :
    ∀ {DT : Type} (parsedate : String → Except String DT)
      (hasTzinfo : DT → Bool) (toLocalFromUtc : DT → DT) (isoformat : DT → String),
      date_iso_of parsedate hasTzinfo toLocalFromUtc isoformat none = ""
      ∧ (∀ hd e, parsedate hd = .error e →
          date_iso_of parsedate hasTzinfo toLocalFromUtc isoformat (some hd) = hd)
      ∧ (∀ hd dt, parsedate hd = .ok dt → hasTzinfo dt = true →
          date_iso_of parsedate hasTzinfo toLocalFromUtc isoformat (some hd)
            = isoformat dt)
      ∧ (∀ hd dt, parsedate hd = .ok dt → hasTzinfo dt = false →
          date_iso_of parsedate hasTzinfo toLocalFromUtc isoformat (some hd)
            = isoformat (toLocalFromUtc dt)) := by
  intro DT parsedate hasTzinfo toLocalFromUtc isoformat
  refine ⟨rfl, ?_, ?_, ?_⟩
  · intro hd e h
    simp only [date_iso_of, h]
  · intro hd dt h htz
    simp only [date_iso_of, h, htz, if_pos]
  · intro hd dt h htz
    simp only [date_iso_of, h, htz, Bool.false_eq_true, if_false]

/-- A date parser that always raises, for the concrete witness. -/
def parsedateFail : String → Except String Unit := fun _ => .error "unparseable"

/-- A constant ISO formatter, for the concrete witness. -/
def isoConst : Unit → String := fun _ => "1970-01-01T00:00:00"

/-- Witness for C6 with a concrete one-value date type: the parse
failure case returns the raw header. -/
theorem date_normalization_cases_witness :
    parsedateFail "not a date" = .error "unparseable"
    ∧ date_iso_of parsedateFail (fun _ => true) id isoConst (some "not a date")
        = "not a date" :=
  ⟨rfl,
   (date_normalization_cases parsedateFail (fun _ => true) id isoConst).2.1
     "not a date" "unparseable" rfl⟩

/-! ## Company guesser (`guess_company_from_from`) -/

/-- Does the first list occur as a prefix of the second? -/
def listStartsWith : List Char → List Char → Bool
  | [], _ => true
  | _ :: _, [] => false
  | p :: ps, c :: cs => p = c && listStartsWith ps cs

/-- Python `str.split(sep)` for a one-character separator (always
returns at least one piece). -/
def splitOnChar (sep : Char) : List Char → List (List Char)
  | [] => [[]]
  | c :: cs =>
    match splitOnChar sep cs with
    | [] => [[]]
    | r :: rs => if c = sep then [] :: r :: rs else (c :: r) :: rs

/-- The generic leading subdomain labels of
`re.sub(r'^(mail|no-reply|noreply|jobs|careers)\.', '', domain)`. -/
def subdomainPrefixes : List String :=
  ["mail.", "no-reply.", "noreply.", "jobs.", "careers."]

/-- Strip one leading generic subdomain label, if present (the
anchored `re.sub` replaces at most one match, at position 0). -/
def strip_subdomain (domain : String) : String :=
  match subdomainPrefixes.find? (fun p => listStartsWith p.toList domain.toList) with
  | some p => ⟨domain.toList.drop p.toList.length⟩
  | none => domain

/-- `guess_company_from_from(header_from)`.  `parseaddr` models
`email.utils.parseaddr` (external standard library) and is a
parameter; everything after it is the source's own logic: a display
name that is non-empty after stripping is returned stripped;
otherwise an address containing `@` yields its lower-cased domain
with one generic subdomain label removed, cut at the first `.` and
capitalized; otherwise the result is `""`. -/
def guess_company_from_from (parseaddr : String → String × String)
    (header_from : String) : String :=
  let name := (parseaddr header_from).1
  let email := (parseaddr header_from).2
  if name ≠ "" ∧ pyStrip name ≠ "" then pyStrip name
  else if email ≠ "" ∧ email.toList.contains '@' then
    let domain := pyLower ⟨(splitOnChar '@' email.toList).getLastD []⟩
    let domain' := strip_subdomain domain
    let name_part : String := ⟨(splitOnChar '.' domain'.toList).headD []⟩
    pyCapitalize name_part
  else ""

/-- `email.utils.parseaddr` evaluated on the three concrete From
headers used below, per its RFC 5322 behaviour (display name without
the surrounding quotes, address from the angle brackets). -/
def parseaddrExamples : String → String × String := fun s =>
  if s = "\"Acme Recruiting\" <jobs@acme.com>" then
    ("Acme Recruiting", "jobs@acme.com")
  else if s = "<jobs@mail.greenhouse.io>" then
    ("", "jobs@mail.greenhouse.io")
  else if s = "\" Acme Recruiting \" <jobs@acme.com>" then
    (" Acme Recruiting ", "jobs@acme.com")
  else ("", "")

example :
    guess_company_from_from parseaddrExamples "\"Acme Recruiting\" <jobs@acme.com>"
      = "Acme Recruiting" := by decide
example :
    guess_company_from_from parseaddrExamples "<jobs@mail.greenhouse.io>"
      = "Greenhouse" := by decide

example :
    guess_company_from_from (fun _ => ("", "a@mail.jobs.acme.com")) "x" = "Jobs" := by
  decide
example :
    guess_company_from_from (fun _ => ("", "a@JOBS.Acme.COM")) "x" = "Acme" := by decide
example : guess_company_from_from (fun _ => ("", "a@x")) "x" = "X" := by decide
example : guess_company_from_from (fun _ => ("", "jobs@")) "x" = "" := by decide
example :
    guess_company_from_from (fun _ => ("", "noreply@no-reply.foo.io")) "x" = "Foo" := by
  decide
example : guess_company_from_from (fun _ => ("  ", "a@b.c")) "x" = "B" := by decide
example : guess_company_from_from (fun _ => ("", "")) "x" = "" := by decide

/-- Claim C7, counterexample: The display name is *not* returned
verbatim: for the From header `\" Acme Recruiting \" <jobs@acme.com>`
(whose display name parses to `" Acme Recruiting "`, padded with
spaces inside the quotes) the source returns the *stripped* name
`"Acme Recruiting"`, not the verbatim `" Acme Recruiting "`. -/
theorem guess_company_not_verbatim :
    guess_company_from_from parseaddrExamples "\" Acme Recruiting \" <jobs@acme.com>"
      = "Acme Recruiting"
    ∧ ¬ guess_company_from_from parseaddrExamples
          "\" Acme Recruiting \" <jobs@acme.com>"
        = " Acme Recruiting " := by
  constructor
  · decide
  · decide

/-- Claim C7, amended: The company guesser returns the display name
with surrounding whitespace stripped when it is non-empty after
stripping; otherwise, when an address containing `@` is present, it
returns the address's lower-cased domain with one known generic
leading subdomain label removed, reduced to its first label and
capitalized; otherwise the empty string; in particular
`"Acme Recruiting" <jobs@acme.com>` yields `Acme Recruiting` and
`<jobs@mail.greenhouse.io>` yields `Greenhouse`. -/
theorem guess_company_characterization :
    (∀ (parseaddr : String → String × String) hf,
        pyStrip (parseaddr hf).1 ≠ "" →
        guess_company_from_from parseaddr hf = pyStrip (parseaddr hf).1)
    ∧ (∀ (parseaddr : String → String × String) hf,
        pyStrip (parseaddr hf).1 = "" →
        (parseaddr hf).2 ≠ "" → (parseaddr hf).2.toList.contains '@' = true →
        guess_company_from_from parseaddr hf =
          pyCapitalize
            ⟨(splitOnChar '.'
                (strip_subdomain
                  (pyLower ⟨(splitOnChar '@' (parseaddr hf).2.toList).getLastD []⟩)).toList).headD
              []⟩)
    ∧ (∀ (parseaddr : String → String × String) hf,
        pyStrip (parseaddr hf).1 = "" →
        ((parseaddr hf).2 = "" ∨ (parseaddr hf).2.toList.contains '@' = false) →
        guess_company_from_from parseaddr hf = "")
    ∧ guess_company_from_from parseaddrExamples "\"Acme Recruiting\" <jobs@acme.com>"
        = "Acme Recruiting"
    ∧ guess_company_from_from parseaddrExamples "<jobs@mail.greenhouse.io>"
        = "Greenhouse" := by
  refine ⟨?_, ?_, ?_, by decide, by decide⟩
  · intro parseaddr hf hname
    have hne : (parseaddr hf).1 ≠ "" := by
      intro h
      rw [h] at hname
      exact hname rfl
    simp only [guess_company_from_from, if_pos (And.intro hne hname)]
  · intro parseaddr hf hname hemail hat
    simp only [guess_company_from_from]
    rw [if_neg (fun h => h.2 hname), if_pos (And.intro hemail hat)]
  · intro parseaddr hf hname hcase
    simp only [guess_company_from_from]
    rw [if_neg (fun h => h.2 hname)]
    rcases hcase with h | h
    · rw [if_neg (fun hc => hc.1 h)]
    · rw [if_neg (fun hc => by rw [h] at hc; exact absurd hc.2 (by decide))]

/-- Witness for the amended C7: the stripped-display-name branch on a
concrete header. -/
theorem guess_company_characterization_witness :
    pyStrip (parseaddrExamples "\" Acme Recruiting \" <jobs@acme.com>").1 ≠ ""
    ∧ guess_company_from_from parseaddrExamples
        "\" Acme Recruiting \" <jobs@acme.com>"
      = pyStrip (parseaddrExamples "\" Acme Recruiting \" <jobs@acme.com>").1 :=
  ⟨by decide,
   guess_company_characterization.1 parseaddrExamples
     "\" Acme Recruiting \" <jobs@acme.com>" (by decide)⟩

/-! ## Job-title guesser (`guess_jobtitle_from_subject`) -/

/-- Consume `lit` case-insensitively (ASCII, as under `re.I`) from
the front of `s`, returning the remainder. -/
def ciStartsWith : List Char → List Char → Option (List Char)
  | [], s => some s
  | _ :: _, [] => none
  | l :: ls, c :: cs => if l.toLower = c.toLower then ciStartsWith ls cs else none

/-- `\s*(.+)` with the regex engine's greedy backtracking: consume
whitespace greedily, then capture at least one character up to the
next newline (`.` does not match `\n`); backtrack into the
whitespace when nothing is left for `(.+)`. -/
def wsStarPlus : List Char → Option (List Char)
  | [] => none
  | c :: cs =>
    if isPySpace c then
      match wsStarPlus cs with
      | some g => some g
      | none =>
        if c != '\n' then some ((c :: cs).takeWhile (fun x => x != '\n')) else none
    else some ((c :: cs).takeWhile (fun x => x != '\n'))

/-- `[:\-]\s*(.+)`: one separator character, then `wsStarPlus`. -/
def sepWsRest : List Char → Option (List Char)
  | [] => none
  | c :: cs => if c = ':' || c = '-' then wsStarPlus cs else none

/-- A literal alternative followed directly by `(.+)` (up to the next
newline, non-empty). -/
def litThenRest (lit : String) (s : List Char) : Option (List Char) :=
  match ciStartsWith lit.toList s with
  | some rest =>
    match rest.takeWhile (fun c => c != '\n') with
    | [] => none
    | g => some g
  | none => none

/-- The pattern
`(application for|applied for|applied to|your application[:\-]\s*)(.+)`
tried at one position, alternatives in regex order; returns group 2. -/
def pat1At (s : List Char) : Option (List Char) :=
  (litThenRest "application for" s) <|>
  (litThenRest "applied for" s) <|>
  (litThenRest "applied to" s) <|>
  (match ciStartsWith "your application".toList s with
   | some rest => sepWsRest rest
   | none => none)

/-- The pattern `(position|role|title)[:\-]\s*(.+)` tried at one
position; returns group 2. -/
def pat2At (s : List Char) : Option (List Char) :=
  (match ciStartsWith "position".toList s with
   | some rest => sepWsRest rest
   | none => none) <|>
  (match ciStartsWith "role".toList s with
   | some rest => sepWsRest rest
   | none => none) <|>
  (match ciStartsWith "title".toList s with
   | some rest => sepWsRest rest
   | none => none)

/-- `re.search`: try the pattern at each position, leftmost match
wins. -/
def searchPos (patAt : List Char → Option (List Char)) : List Char → Option (List Char)
  | [] => patAt []
  | c :: cs => (patAt (c :: cs)) <|> searchPos patAt cs

/-- `guess_jobtitle_from_subject(subject)`: empty subject yields
`""`; else the "application for / applied for / applied to / your
application:" pattern returns its trailing text stripped of
whitespace then of `" -:"`; else the "position:/role:/title:"
pattern returns its trailing text stripped; else the stripped
subject, cut to its first 120 characters when the raw subject is not
shorter than 120. -/
def guess_jobtitle_from_subject (subject : String) : String :=
  if subject = "" then ""
  else
    match searchPos pat1At subject.toList with
    | some g => pyStripChars [' ', '-', ':'] (pyStrip ⟨g⟩)
    | none =>
      match searchPos pat2At subject.toList with
      | some g => pyStrip ⟨g⟩
      | none =>
        if subject.length < 120 then pyStrip subject
        else ⟨(pyStrip subject).toList.take 120⟩

example :
    guess_jobtitle_from_subject "Your application: Senior Backend Engineer"
      = "Senior Backend Engineer" := by decide
example : guess_jobtitle_from_subject "Quick update" = "Quick update" := by decide
example : guess_jobtitle_from_subject "Position: Staff Engineer" = "Staff Engineer" := by
  decide
example :
    guess_jobtitle_from_subject "Application for Data Scientist - Acme"
      = "Data Scientist - Acme" := by decide

example : guess_jobtitle_from_subject "Application form" = "m" := by decide
example :
    guess_jobtitle_from_subject "Your application - Data Engineer"
      = "Your application - Data Engineer" := by decide
example : guess_jobtitle_from_subject "Role: PM" = "PM" := by decide
example : guess_jobtitle_from_subject "composition: notes" = "notes" := by decide
example : guess_jobtitle_from_subject "your application:" = "your application:" := by
  decide
example : guess_jobtitle_from_subject "applied to  XYZ Corp" = "XYZ Corp" := by decide
example :
    guess_jobtitle_from_subject "Re: your application: SWE II" = "SWE II" := by decide
example : guess_jobtitle_from_subject "TITLE- Designer" = "Designer" := by decide
example : guess_jobtitle_from_subject " padded subject " = "padded subject" := by decide
example : guess_jobtitle_from_subject "" = "" := by decide

/-- Claim C8, counterexample: A short subject that matches no pattern
is *not* returned verbatim: the source returns `subject.strip()`, so
the padded subject `" Quick update"` comes back as
`"Quick update"`. -/
theorem guess_jobtitle_not_verbatim :
    guess_jobtitle_from_subject " Quick update" = "Quick update"
    ∧ ¬ guess_jobtitle_from_subject " Quick update" = " Quick update" := by
  constructor
  · decide
  · decide

/-- Claim C8, amended: The rules apply in order with first match
winning: (a) an "application for / applied for / applied to / your
application:" match returns the trailing text with surrounding
whitespace and separators trimmed; (b) else a
"position:/role:/title:" match returns the trailing text trimmed;
(c) else the subject is returned with surrounding whitespace
stripped, truncated to the first 120 characters of the stripped
subject when the raw subject has 120 or more characters; the guesser
never fails (it is total and the spec's examples hold). -/
theorem guess_jobtitle_characterization :
    (∀ subject g, subject ≠ "" → searchPos pat1At subject.toList = some g →
        guess_jobtitle_from_subject subject
          = pyStripChars [' ', '-', ':'] (pyStrip ⟨g⟩))
    ∧ (∀ subject g, subject ≠ "" → searchPos pat1At subject.toList = none →
        searchPos pat2At subject.toList = some g →
        guess_jobtitle_from_subject subject = pyStrip ⟨g⟩)
    ∧ (∀ subject, subject ≠ "" → searchPos pat1At subject.toList = none →
        searchPos pat2At subject.toList = none →
        guess_jobtitle_from_subject subject =
          (if subject.length < 120 then pyStrip subject
           else ⟨(pyStrip subject).toList.take 120⟩))
    ∧ guess_jobtitle_from_subject "Your application: Senior Backend Engineer"
        = "Senior Backend Engineer"
    ∧ guess_jobtitle_from_subject "Quick update" = "Quick update" := by
  refine ⟨?_, ?_, ?_, by decide, by decide⟩
  · intro subject g hne h1
    simp only [guess_jobtitle_from_subject, if_neg hne, h1]
  · intro subject g hne h1 h2
    simp only [guess_jobtitle_from_subject, if_neg hne, h1, h2]
  · intro subject hne h1 h2
    simp only [guess_jobtitle_from_subject, if_neg hne, h1, h2]

/-- Witness for the amended C8: the pattern-(a) branch on a concrete
subject. -/
theorem guess_jobtitle_characterization_witness :
    searchPos pat1At "Your application: Senior Backend Engineer".toList
      = some "Senior Backend Engineer".toList
    ∧ guess_jobtitle_from_subject "Your application: Senior Backend Engineer"
      = pyStripChars [' ', '-', ':'] (pyStrip ⟨"Senior Backend Engineer".toList⟩) :=
  ⟨by decide,
   guess_jobtitle_characterization.1 "Your application: Senior Backend Engineer"
     "Senior Backend Engineer".toList (by decide) (by decide)⟩

/-! ## Dedup / persistence layer (`load_existing_ids`, `write_csv`,
`main` lines 215–232) -/

/-- One persisted Message Record, fields in CSV column order. -/
structure Row where
  message_id : String
  thread_id : String
  date : String
  sender_name : String
  sender_email : String
  subject : String
  company_guess : String
  job_title_guess : String
  status : String
  preview : String
deriving DecidableEq, Repr

/-- The output CSV file: whether the header row is present, plus the
data rows in order.  `Option CsvFile = none` models a file that does
not exist. -/
structure CsvFile where
  header : Bool
  rows : List Row
deriving DecidableEq, Repr

/-- `load_existing_ids(path)`: a missing file is the empty set; a row
whose `message_id` is empty or absent (`csv.DictReader` yields a
falsy value either way) is skipped.  The Python set is modelled as
the list of collected ids in row order. -/
def load_existing_ids : Option CsvFile → List String
  | none => []
  | some f => (f.rows.map Row.message_id).filter (fun i => i != "")

/-- `write_csv(path, rows, append)`: append mode appends the rows and
writes a header only when the file did not exist; overwrite mode
truncates and writes header plus rows. -/
def write_csv (fs : Option CsvFile) (rows : List Row) (append : Bool) : CsvFile :=
  if append then
    match fs with
    | some f => ⟨f.header, f.rows ++ rows⟩
    | none => ⟨true, rows⟩
  else ⟨true, rows⟩

/-- The per-message fetch/parse loop of `main` (lines 219–226).
`parse` models `parse_message` together with its network fetch; a
raised exception (`.error`) is caught, the failing message id logged,
and the loop continues.  Returns the collected rows and logged ids,
each in input order. -/
def process_loop (parse : String → Except String Row) :
    List String → List Row × List String
  | [] => ([], [])
  | mid :: rest =>
    let r := process_loop parse rest
    match parse mid with
    | .ok row => (row :: r.1, r.2)
    | .error _ => (r.1, mid :: r.2)

/-- Lines 215–216 of `main`: in append mode the ids already in the
store are excluded from the candidate list before any fetch; in
overwrite mode `existing_ids` is the empty set. -/
def to_process (fs : Option CsvFile) (ids : List String) (append : Bool) :
    List String :=
  let existing_ids := if append then load_existing_ids fs else []
  ids.filter (fun i => !(existing_ids.contains i))

/-- `main`'s pipeline after the id search (lines 215–232): filter the
candidates, process them, and write only when at least one row was
produced (`if rows: write_csv(...)`). -/
def run_main (fs : Option CsvFile) (ids : List String)
    (parse : String → Except String Row) (append : Bool) : Option CsvFile :=
  let rows := (process_loop parse (to_process fs ids append)).1
  if rows.isEmpty then fs else some (write_csv fs rows append)

/-- A sample persisted row. -/
def exampleRow : Row :=
  ⟨"m1", "t1", "", "", "", "", "", "", "Unknown", ""⟩

/-- Membership in the filtered candidate list, append mode. -/
theorem mem_to_process {fs : Option CsvFile} {ids : List String} {i : String} :
    i ∈ to_process fs ids true ↔ i ∈ ids ∧ ¬ i ∈ load_existing_ids fs := by
  simp [to_process, List.mem_filter]

/-- Every produced row comes from a successfully parsed candidate. -/
theorem process_loop_mem_source (parse : String → Except String Row) :
    ∀ l r, r ∈ (process_loop parse l).1 → ∃ i ∈ l, parse i = .ok r := by
  intro l
  induction l with
  | nil => intro r hr; simp [process_loop] at hr
  | cons a l ih =>
    intro r hr
    simp only [process_loop] at hr
    cases hp : parse a with
    | ok row =>
      rw [hp] at hr
      rcases List.mem_cons.mp hr with h | h
      · exact ⟨a, List.mem_cons_self a l, by rw [hp, h]⟩
      · obtain ⟨i, hi, hpi⟩ := ih r h
        exact ⟨i, List.mem_cons_of_mem a hi, hpi⟩
    | error e =>
      rw [hp] at hr
      obtain ⟨i, hi, hpi⟩ := ih r hr
      exact ⟨i, List.mem_cons_of_mem a hi, hpi⟩

/-- A successfully parsed candidate contributes its row. -/
theorem mem_process_loop (parse : String → Except String Row) :
    ∀ (l : List String) (i : String) (r : Row), i ∈ l → parse i = .ok r →
      r ∈ (process_loop parse l).1 := by
  intro l
  induction l with
  | nil => intro i r hi; simp at hi
  | cons a l ih =>
    intro i r hi hp
    simp only [process_loop]
    rcases List.mem_cons.mp hi with h | h
    · rw [← h, hp]
      exact List.mem_cons_self r _
    · cases hpa : parse a with
      | ok row => exact List.mem_cons_of_mem row (ih i r h hp)
      | error e => exact ih i r h hp

/-- When every candidate fails to parse, no row is produced. -/
theorem process_loop_nil_of_all_error (parse : String → Except String Row) :
    ∀ l : List String, (∀ i ∈ l, exceptOk (parse i) = false) →
      (process_loop parse l).1 = [] := by
  intro l
  induction l with
  | nil => intro _; rfl
  | cons a l ih =>
    intro h
    simp only [process_loop]
    cases hpa : parse a with
    | ok row =>
      exfalso
      have := h a (List.mem_cons_self a l)
      rw [hpa] at this
      simp [exceptOk] at this
    | error e => exact ih fun i hi => h i (List.mem_cons_of_mem a hi)

/-- The ids of the produced rows are exactly the successfully parsed
candidates, in order, provided each parsed row carries its own id. -/
theorem process_loop_map_id (parse : String → Except String Row)
    (hparse : ∀ i r, parse i = .ok r → r.message_id = i) :
    ∀ l : List String, ((process_loop parse l).1).map Row.message_id
      = l.filter (fun i => exceptOk (parse i)) := by
  intro l
  induction l with
  | nil => rfl
  | cons a l ih =>
    simp only [process_loop, List.filter_cons]
    cases hpa : parse a with
    | ok row =>
      simp only [List.map_cons, ih, hparse a row hpa, hpa, exceptOk]
      simp
    | error e =>
      simp only [ih, hpa, exceptOk]
      simp

/-- The loop is compositional over list append. -/
theorem process_loop_append (parse : String → Except String Row) :
    ∀ l1 l2 : List String,
      process_loop parse (l1 ++ l2)
        = ((process_loop parse l1).1 ++ (process_loop parse l2).1,
           (process_loop parse l1).2 ++ (process_loop parse l2).2) := by
  intro l1 l2
  induction l1 with
  | nil => simp [process_loop]
  | cons a l ih =>
    cases hpa : parse a <;>
      simp [List.cons_append, process_loop, hpa, ih]

/-- Claim C9: A message whose fetch/parse raises is skipped with its id
logged, the other messages are still processed, and every produced
record comes whole from one successfully parsed message (all or
nothing; no partial record for the failed one). -/
theorem per_message_error_isolated :
    ∀ (parse : String → Except String Row) (pre post : List String)
      (mid : String) (e : String),
      parse mid = .error e →
      (process_loop parse (pre ++ mid :: post)).1
          = (process_loop parse pre).1 ++ (process_loop parse post).1
      ∧ (process_loop parse (pre ++ mid :: post)).2
          = (process_loop parse pre).2 ++ mid :: (process_loop parse post).2
      ∧ (∀ r ∈ (process_loop parse (pre ++ mid :: post)).1,
          ∃ i ∈ pre ++ mid :: post, parse i = .ok r) := by
  intro parse pre post mid e hmid
  have hmidstep : process_loop parse (mid :: post)
      = ((process_loop parse post).1, mid :: (process_loop parse post).2) := by
    simp only [process_loop, hmid]
  refine ⟨?_, ?_, fun r hr => process_loop_mem_source parse _ r hr⟩
  · rw [process_loop_append, hmidstep]
  · rw [process_loop_append, hmidstep]

/-- A parse function failing exactly on id `"bad"`, for the witness. -/
def parseBad : String → Except String Row :=
  fun i => if i = "bad" then .error "boom" else .ok exampleRow

/-- Witness for C9: the failing id `"bad"` between `"a"` and `"b"`. -/
theorem per_message_error_isolated_witness :
    parseBad "bad" = .error "boom"
    ∧ (process_loop parseBad (["a"] ++ "bad" :: ["b"])).1
        = (process_loop parseBad ["a"]).1 ++ (process_loop parseBad ["b"]).1 :=
  ⟨by rfl,
   (per_message_error_isolated parseBad ["a"] ["b"] "bad" "boom" (by rfl)).1⟩

/-- Claim C10: Loading the existing-id set excludes every row whose
`message_id` is empty or absent: the empty id is never in the set,
appending an empty-id row leaves the set unchanged, and a candidate
id outside the set is always kept for processing in append mode. -/
theorem load_existing_ids_skips_empty :
    (∀ fs : Option CsvFile, ¬ "" ∈ load_existing_ids fs)
    ∧ (∀ (f : CsvFile) (r : Row), r.message_id = "" →
        load_existing_ids (some ⟨f.header, f.rows ++ [r]⟩)
          = load_existing_ids (some f))
    ∧ (∀ (fs : Option CsvFile) (ids : List String) (i : String),
        i ∈ ids → ¬ i ∈ load_existing_ids fs → i ∈ to_process fs ids true) := by
  refine ⟨?_, ?_, ?_⟩
  · intro fs h
    cases fs with
    | none => simp [load_existing_ids] at h
    | some f =>
      simp only [load_existing_ids, List.mem_filter] at h
      exact absurd h.2 (by simp)
  · intro f r hr
    simp [load_existing_ids, List.filter_append, hr]
  · intro fs ids i hi hni
    exact mem_to_process.mpr ⟨hi, hni⟩

/-- Witness for C10: an empty-id row appended to a one-row store
leaves the dedup set unchanged. -/
theorem load_existing_ids_skips_empty_witness :
    (⟨"", "t", "", "", "", "", "", "", "Unknown", ""⟩ : Row).message_id = ""
    ∧ load_existing_ids
        (some ⟨true, [exampleRow] ++ [⟨"", "t", "", "", "", "", "", "", "Unknown", ""⟩]⟩)
      = load_existing_ids (some ⟨true, [exampleRow]⟩) :=
  ⟨rfl,
   load_existing_ids_skips_empty.2.1 ⟨true, [exampleRow]⟩
     ⟨"", "t", "", "", "", "", "", "", "Unknown", ""⟩ rfl⟩

/-- A parse function that always raises, for concrete runs. -/
def parseNone : String → Except String Row := fun _ => .error "unreachable"

/-- Claim C5, counterexample: An overwrite-mode run that produces no
records does *not* write a fresh store: `main` only calls
`write_csv` when `rows` is non-empty, so a run over zero candidate
ids leaves the prior store (here one old row) untouched instead of
replacing it with a header-only store. -/
theorem overwrite_not_always_fresh :
    run_main (some ⟨true, [exampleRow]⟩) [] parseNone false
      = some ⟨true, [exampleRow]⟩
    ∧ ¬ run_main (some ⟨true, [exampleRow]⟩) [] parseNone false
        = some ⟨true, []⟩ := by
  constructor
  · rfl
  · intro h
    simp [run_main, to_process, process_loop] at h

/-- Claim C5, amended: In overwrite mode no candidate is filtered out,
and a run that produces at least one record writes a fresh store
consisting of a header row plus exactly the records produced by that
run, discarding any prior content; a run producing no records leaves
the store untouched. -/
theorem overwrite_writes_fresh :
    (∀ (fs : Option CsvFile) (ids : List String), to_process fs ids false = ids)
    ∧ (∀ (fs : Option CsvFile) (ids : List String)
        (parse : String → Except String Row),
        (process_loop parse ids).1 ≠ [] →
        run_main fs ids parse false
          = some ⟨true, (process_loop parse ids).1⟩)
    ∧ (∀ (fs : Option CsvFile) (ids : List String)
        (parse : String → Except String Row),
        (process_loop parse ids).1 = [] →
        run_main fs ids parse false = fs) := by
  have htp : ∀ (fs : Option CsvFile) (ids : List String),
      to_process fs ids false = ids := by
    intro fs ids
    simp [to_process]
  refine ⟨htp, ?_, ?_⟩
  · intro fs ids parse hne
    simp only [run_main, htp]
    rw [if_neg (by simpa [List.isEmpty_iff] using hne)]
    rfl
  · intro fs ids parse hnil
    simp only [run_main, htp]
    rw [if_pos (by simpa [List.isEmpty_iff] using hnil)]

/-- A parse function that always succeeds with `exampleRow`, for the
witness. -/
def parseConst : String → Except String Row := fun _ => .ok exampleRow

/-- Witness for the amended C5: one successfully parsed id over a
non-empty prior store yields a fresh header-plus-one-row store. -/
theorem overwrite_writes_fresh_witness :
    (process_loop parseConst ["m1"]).1 ≠ []
    ∧ run_main (some ⟨true, [⟨"old", "t", "", "", "", "", "", "", "Unknown", ""⟩]⟩)
        ["m1"] parseConst false
      = some ⟨true, (process_loop parseConst ["m1"]).1⟩ :=
  ⟨by simp [process_loop, parseConst],
   overwrite_writes_fresh.2.1
     (some ⟨true, [⟨"old", "t", "", "", "", "", "", "", "Unknown", ""⟩]⟩)
     ["m1"] parseConst (by simp [process_loop, parseConst])⟩

/-- Appending rows to the store extends the dedup set with the new
rows' non-empty ids. -/
theorem load_write_append (fs : Option CsvFile) (rows : List Row) :
    load_existing_ids (some (write_csv fs rows true))
      = load_existing_ids fs
        ++ (rows.map Row.message_id).filter (fun i => i != "") := by
  cases fs with
  | none => simp [write_csv, load_existing_ids]
  | some f => simp [write_csv, load_existing_ids, List.filter_append]

/-- A row of the pipeline's own making, for concrete runs. -/
def mkRowFor (i : String) : Row :=
  ⟨i, "", "", "", "", "", "", "", "Unknown", ""⟩

/-- Claim C2: In append mode every candidate id already in the store is
excluded before any per-message fetch/parse; re-running the pipeline
on an unchanged candidate list changes nothing (no new rows); and
when the candidate ids are distinct and non-empty and the prior
store's ids are distinct, `message_id` stays unique across the
persisted store. -/
theorem append_mode_dedup :
    ∀ (fs : Option CsvFile) (ids : List String)
      (parse : String → Except String Row),
      (∀ i r, parse i = .ok r → r.message_id = i) →
      (∀ i ∈ ids, i ≠ "") →
      (∀ i ∈ to_process fs ids true, ¬ i ∈ load_existing_ids fs)
      ∧ run_main (run_main fs ids parse true) ids parse true
          = run_main fs ids parse true
      ∧ (ids.Nodup → (load_existing_ids fs).Nodup →
          (load_existing_ids (run_main fs ids parse true)).Nodup) := by
  intro fs ids parse hparse hne
  refine ⟨fun i hi => (mem_to_process.mp hi).2, ?_, ?_⟩
  · by_cases hrows : (process_loop parse (to_process fs ids true)).1 = []
    · have h1 : run_main fs ids parse true = fs := by
        simp [run_main, hrows]
      rw [h1]
      exact h1
    · have h1 : run_main fs ids parse true
          = some (write_csv fs (process_loop parse (to_process fs ids true)).1 true) := by
        simp [run_main, List.isEmpty_iff, hrows]
      rw [h1]
      have hload : load_existing_ids
            (some (write_csv fs (process_loop parse (to_process fs ids true)).1 true))
          = load_existing_ids fs
            ++ (((process_loop parse (to_process fs ids true)).1).map
                  Row.message_id).filter (fun i => i != "") :=
        load_write_append fs _
      have hall : ∀ i ∈ to_process
            (some (write_csv fs (process_loop parse (to_process fs ids true)).1 true))
            ids true,
          exceptOk (parse i) = false := by
        intro i hi
        obtain ⟨hiids, hinot⟩ := mem_to_process.mp hi
        cases hp : parse i with
        | error e => rfl
        | ok r =>
          exfalso
          apply hinot
          rw [hload]
          apply List.mem_append_right
          apply List.mem_filter.mpr
          refine ⟨?_, by simpa using hne i hiids⟩
          apply List.mem_map.mpr
          refine ⟨r, ?_, hparse i r hp⟩
          apply mem_process_loop parse _ i r ?_ hp
          apply mem_to_process.mpr
          refine ⟨hiids, fun hmem => hinot ?_⟩
          rw [hload]
          exact List.mem_append_left _ hmem
      have hnil2 : (process_loop parse
          (to_process
            (some (write_csv fs (process_loop parse (to_process fs ids true)).1 true))
            ids true)).1 = [] :=
        process_loop_nil_of_all_error parse _ hall
      simp [run_main, hnil2]
  · intro hnd hstore
    by_cases hrows : (process_loop parse (to_process fs ids true)).1 = []
    · have h1 : run_main fs ids parse true = fs := by
        simp [run_main, hrows]
      rw [h1]
      exact hstore
    · have h1 : run_main fs ids parse true
          = some (write_csv fs (process_loop parse (to_process fs ids true)).1 true) := by
        simp [run_main, List.isEmpty_iff, hrows]
      rw [h1, load_write_append, process_loop_map_id parse hparse]
      have htpnodup : (to_process fs ids true).Nodup := List.Nodup.filter _ hnd
      refine List.Nodup.append hstore ((htpnodup.filter _).filter _) ?_
      intro a ha hafil
      have h2 := List.mem_filter.mp hafil
      have h3 := List.mem_filter.mp h2.1
      exact (mem_to_process.mp h3.1).2 ha

/-- A parse function returning the row keyed by the requested id, for
the witness. -/
def parseOkFor : String → Except String Row := fun j => .ok (mkRowFor j)

/-- Witness for C2: two fresh ids into an empty store; the second run
changes nothing. -/
theorem append_mode_dedup_witness :
    run_main (run_main none ["m1", "m2"] parseOkFor true)
        ["m1", "m2"] parseOkFor true
      = run_main none ["m1", "m2"] parseOkFor true :=
  (append_mode_dedup none ["m1", "m2"] parseOkFor
      (fun i r h => by injection h with h2; rw [← h2]; rfl)
      (by decide)).2.1

end JobTracker
